import Mathlib

/-!
# Verification of the bulk-FHIR log summary pipeline

Shallow embedding of `bulk_fhir_log_summary/cli.py`: the event-to-run parser
(`parse_log_row`, `set_single_value`), the stats deriver (`collate_run`,
`count_patients`), the merger (`merge_stats`) and the `_type` canonicalization,
together with theorems about the spec's claims.

Conventions of the embedding:
* JSON rows become the structure `Row`; every field the code reads is present
  (the schema declares them required; a missing field is a hard failure outside
  the modelled core).
* Python `dict`s become insertion-ordered association lists with `dictGet` /
  `dictSet` (assignment to an existing key keeps its position, like CPython).
* Timestamps are instants in milliseconds (`Int`); ISO-8601 parsing is done by
  the excluded I/O boundary.
* Python truthiness is modelled explicitly where the code relies on it
  (`truthyStr` for optional strings; a present event row is a nonempty dict,
  hence truthy, so `Option.isSome` is its truthiness).
* Code that can raise returns `Except String _`; the in-place mutation that
  `collate_run` performs on its argument (via aliasing of
  `requestParameters`) is made explicit by returning the post-state run.
-/

namespace BulkLog

/-- Python `dict` lookup `d.get(k)` / `k in d` on an insertion-ordered
association list. -/
def dictGet {κ α : Type} [DecidableEq κ] : List (κ × α) → κ → Option α
  | [], _ => none
  | (k, v) :: t, key => if k = key then some v else dictGet t key

/-- Python `dict` assignment `d[k] = v`: replaces in place if the key exists
(keeping its position, as CPython does), otherwise appends. -/
def dictSet {κ α : Type} [DecidableEq κ] : List (κ × α) → κ → α → List (κ × α)
  | [], key, val => [(key, val)]
  | (k, v) :: t, key, val =>
    if k = key then (key, val) :: t else (k, v) :: dictSet t key val

/-- `needle` occurs at the start of `hay`. -/
def listStartsWith : List Char → List Char → Bool
  | [], _ => true
  | _ :: _, [] => false
  | a :: as, b :: bs => a = b && listStartsWith as bs

/-- `needle` occurs somewhere in `hay`: Python's substring test `needle in hay`
for nonempty `needle`. -/
def hasSub (needle : List Char) : List Char → Bool
  | [] => listStartsWith needle []
  | c :: t => listStartsWith needle (c :: t) || hasSub needle t

/-- Python `needle in hay` on strings (substring containment). -/
def pyInStr (needle hay : String) : Bool := hasSub needle.data hay.data

/-- Python `hay.split(sep)[0]` for nonempty `sep`: the part before the first
occurrence of `sep` (the whole string if `sep` does not occur). -/
def beforeSub (sep : List Char) : List Char → List Char
  | [] => []
  | c :: t => if listStartsWith sep (c :: t) then [] else c :: beforeSub sep t

/-- Worker for `afterLastSub`; the fuel (initially the length of the haystack)
dominates the number of steps of Python's left-to-right non-overlapping
separator scan. -/
def afterLastSubFuel (sep : List Char) : Nat → List Char → List Char
  | 0, hay => hay
  | fuel + 1, hay =>
    if hasSub sep hay then
      if listStartsWith sep hay then afterLastSubFuel sep fuel (hay.drop sep.length)
      else
        match hay with
        | [] => []
        | _ :: t => afterLastSubFuel sep fuel t
    else hay

/-- Python `hay.split(sep)[-1]` for nonempty `sep`: the part after the last
separator occurrence of the non-overlapping left-to-right scan. -/
def afterLastSub (sep hay : List Char) : List Char := afterLastSubFuel sep hay.length hay

/-- Python `s.strip("/")`: remove leading and trailing `/` characters. -/
def stripSlashes (s : String) : String :=
  String.mk (((s.data.dropWhile (· = '/')).reverse.dropWhile (· = '/')).reverse)

/-- Python string comparison `a <= b`: lexicographic on code points. -/
def clLeB : List Char → List Char → Bool
  | [], _ => true
  | _ :: _, [] => false
  | a :: as, b :: bs => if a = b then clLeB as bs else decide (a < b)

/-- Python string comparison `a < b`: strict lexicographic on code points. -/
def clLtB : List Char → List Char → Bool
  | [], [] => false
  | [], _ :: _ => true
  | _ :: _, [] => false
  | a :: as, b :: bs => if a = b then clLtB as bs else decide (a < b)

/-- The ordering Python's `sorted` uses on the comma-split pieces of `_type`. -/
def clLe (a b : List Char) : Prop := clLeB a b = true

instance : DecidableRel clLe := fun a b => inferInstanceAs (Decidable (clLeB a b = true))

/-- Python `s.split(",")`: split a character list at every comma. Splitting the
empty string yields one empty piece, as in Python. -/
def splitComma : List Char → List (List Char)
  | [] => [[]]
  | c :: t =>
    match splitComma t with
    | [] => [[]]
    | h :: r => if c = ',' then [] :: h :: r else (c :: h) :: r

/-- Python `",".join(pieces)`. -/
def joinComma : List (List Char) → List Char
  | [] => []
  | [m] => m
  | m :: r => m ++ ',' :: joinComma r

/-- The `_type` canonicalization of `collate_run` (and of `sort_stats`' key):
`",".join(sorted(types.split(",")))`. -/
def canonType (s : String) : String :=
  String.mk (joinComma (List.insertionSort clLe (splitComma s.data)))

/-- Python truthiness of an optional string: `None` and `""` are falsy. -/
def truthyStr : Option String → Bool
  | none => false
  | some s => s != ""

/-- One classified log record. `eventDetail` carries every field the code ever
reads; each event kind uses its own subset. -/
structure EventDetail where
  fileUrl : String := ""
  exportUrl : String := ""
  requestParameters : List (String × String) := []
  resourceType : String := ""
  itemType : String := ""
  resourceCount : Int := 0
  resources : Int := 0
  bytes : Int := 0
deriving DecidableEq

/-- A decoded log row (one NDJSON line). -/
structure Row where
  exportId : String
  eventId : String
  timestamp : Int := 0
  eventDetail : EventDetail := {}
deriving DecidableEq

/-- `BulkDownload`: one file transfer of a run. `parse_error` models the
attribute that Python's `setattr` creates dynamically when `set_single_value`
is invoked on a download (it does not exist before the first such write). -/
structure BulkDownload where
  url : String
  request : Row
  complete : Option Row := none
  error : Option Row := none
  parse_error : Option String := none
deriving DecidableEq

/-- `BulkRun`: the aggregate for one export identifier. -/
structure BulkRun where
  export_id : String
  kickoff : Option Row := none
  status_complete : Option Row := none
  downloads : List (String × BulkDownload) := []
  export_complete : Option Row := none
  parse_error : Option String := none
deriving DecidableEq

/-- `RunStats.__init__`'s field defaults. `start` is an optional instant,
`duration` the millisecond wall-clock delta. -/
structure RunStats where
  group : Option String := none
  start : Option Int := none
  params : List (String × String) := []
  count : Int := 0
  patient_count : Int := 0
  bytes : Int := 0
  duration : Int := 0
  errors : Int := 0
  num_runs : Int := 1
deriving DecidableEq

/-- `getattr(run, key)` for the three singleton event fields. -/
def run_get (run : BulkRun) (key : String) : Option Row :=
  if key = "kickoff" then run.kickoff
  else if key = "status_complete" then run.status_complete
  else if key = "export_complete" then run.export_complete
  else none

/-- `setattr(run, key, row)` for the three singleton event fields. -/
def run_set (run : BulkRun) (key : String) (row : Row) : BulkRun :=
  if key = "kickoff" then { run with kickoff := some row }
  else if key = "status_complete" then { run with status_complete := some row }
  else if key = "export_complete" then { run with export_complete := some row }
  else run

/-- `set_single_value(run, key, row)` applied to a `BulkRun`: a second write of
a singleton field sets `run.parse_error = f"Two {key} events"` instead of
overwriting (a present row is a nonempty dict, hence truthy). -/
def set_single_value (run : BulkRun) (key : String) (row : Row) : BulkRun :=
  if (run_get run key).isSome then
    { run with parse_error := some ("Two " ++ key ++ " events") }
  else run_set run key row

/-- `getattr(download, key)` for a download's two singleton fields. -/
def dl_get (d : BulkDownload) (key : String) : Option Row :=
  if key = "complete" then d.complete
  else if key = "error" then d.error
  else none

/-- `setattr(download, key, row)` for a download's two singleton fields. -/
def dl_set (d : BulkDownload) (key : String) (row : Row) : BulkDownload :=
  if key = "complete" then { d with complete := some row }
  else if key = "error" then { d with error := some row }
  else d

/-- `set_single_value(run.downloads[url], key, row)`: the source passes a
`BulkDownload` where the declared parameter type is `BulkRun`, so the
duplicate-write branch `run.parse_error = f"Two {key} events"` assigns
`parse_error` on the download object - not on the run. -/
def set_single_value_dl (d : BulkDownload) (key : String) (row : Row) : BulkDownload :=
  if (dl_get d key).isSome then
    { d with parse_error := some ("Two " ++ key ++ " events") }
  else dl_set d key row

/-- `parse_log_row(row, run)`: fold one classified event into the run keyed by
its export identifier, creating the run on first sight. -/
def parse_log_row (row : Row) (run0 : Option BulkRun) : BulkRun :=
  let run := match run0 with
    | none => { export_id := row.exportId }
    | some r => r
  if truthyStr run.parse_error then
    run
  else
    let event_id := row.eventId
    if event_id = "kickoff" then set_single_value run "kickoff" row
    else if event_id = "status_complete" then set_single_value run "status_complete" row
    else if event_id = "download_request" then
      let url := row.eventDetail.fileUrl
      { run with downloads := dictSet run.downloads url { url := url, request := row } }
    else if event_id = "download_complete" then
      let url := row.eventDetail.fileUrl
      match dictGet run.downloads url with
      | none => { run with parse_error := some "Missing download request" }
      | some d =>
        { run with downloads := dictSet run.downloads url (set_single_value_dl d "complete" row) }
    else if event_id = "download_error" then
      let url := row.eventDetail.fileUrl
      match dictGet run.downloads url with
      | none => { run with parse_error := some "Missing download request" }
      | some d =>
        { run with downloads := dictSet run.downloads url (set_single_value_dl d "error" row) }
    else if event_id = "export_complete" then set_single_value run "export_complete" row
    else if event_id = "manifest_complete" ∨ event_id = "status_error" ∨
        event_id = "status_page_complete" ∨ event_id = "status_progress" then run
    else { run with parse_error := some ("Unknown event ID " ++ event_id) }

/-- `parse_log_files`, restricted to its core: fold decoded rows into the
per-export-identifier mapping and return the runs in insertion order. -/
def parse_log_rows (rows : List Row) : List BulkRun :=
  (rows.foldl
    (fun runs row => dictSet runs row.exportId (parse_log_row row (dictGet runs row.exportId)))
    []).map Prod.snd

/-- `count_patients(run)`: sum of completed download resource counts whose
originating request's resource type is `"Patient"` (the `and download.complete`
truthiness guard makes the access to the completion row safe). -/
def count_patients (run : BulkRun) : Int :=
  (run.downloads.map Prod.snd).foldl
    (fun count d =>
      match d.complete with
      | some c =>
        if d.request.eventDetail.resourceType = "Patient" then
          count + c.eventDetail.resourceCount
        else count
      | none => count)
    0

/-- The generator `sum(x.complete["eventDetail"]["resourceCount"] for x in error_files)`
of `collate_run`: subscripting `x.complete` when it is `None` raises. -/
def sum_error_resource_counts : List BulkDownload → Except String Int
  | [] => .ok 0
  | d :: rest =>
    match d.complete with
    | none => .error "TypeError: NoneType is not subscriptable"
    | some c =>
      match sum_error_resource_counts rest with
      | .error e => .error e
      | .ok n => .ok (c.eventDetail.resourceCount + n)

/-- `collate_run(run)`: derive `RunStats` from a run, or `none` for an
ineligible run. The returned `BulkRun` is the post-state of the argument:
`stats.params` aliases the kickoff's `requestParameters`, so rewriting
`stats.params["_type"]` mutates the run's kickoff in place. A raised exception
is `.error`. -/
def collate_run (run : BulkRun) : Except String (BulkRun × Option RunStats) :=
  if truthyStr run.parse_error then .ok (run, none)
  else
    match run.kickoff with
    | none => .ok (run, none)
    | some kick =>
      match run.status_complete with
      | none => .ok (run, none)
      | some _ =>
        match run.export_complete with
        | none => .ok (run, none)
        | some ec =>
          let kickoff_detail := kick.eventDetail
          let export_detail := ec.eventDetail
          let url := String.mk (beforeSub "$export".data kickoff_detail.exportUrl.data)
          let group :=
            if pyInStr "/Group/" url then
              stripSlashes (String.mk (afterLastSub "/Group/".data url.data))
            else ""
          let types := dictGet kickoff_detail.requestParameters "_type"
          let params1 :=
            if truthyStr types then
              dictSet kickoff_detail.requestParameters "_type" (canonType (types.getD ""))
            else kickoff_detail.requestParameters
          let run1 : BulkRun :=
            { run with kickoff := some { kick with eventDetail :=
                { kickoff_detail with requestParameters := params1 } } }
          let patient_count :=
            if !truthyStr types ||
                (types.getD "" != "Patient" && pyInStr "Patient" (types.getD "")) then
              count_patients run
            else 0
          let error_files :=
            (run.downloads.map Prod.snd).filter (fun d => d.request.eventDetail.itemType == "error")
          match sum_error_resource_counts error_files with
          | .error e => .error e
          | .ok errs =>
            .ok (run1, some {
              group := some group
              start := some kick.timestamp
              params := params1
              count := export_detail.resources
              patient_count := patient_count
              bytes := export_detail.bytes
              duration := ec.timestamp - kick.timestamp
              errors := errs
              num_runs := 1 })

/-- The run object after `collate_run` returned normally (`none` on a raise). -/
def run_after (e : Except String (BulkRun × Option RunStats)) : Option BulkRun :=
  match e with
  | .ok (r, _) => some r
  | .error _ => none

/-- The stats `collate_run` returned (`none` both for an ineligible run and for
a raise). -/
def stats_of (e : Except String (BulkRun × Option RunStats)) : Option RunStats :=
  match e with
  | .ok (_, s) => s
  | .error _ => none

/-- Python tuple comparison `(k1, v1) <= (k2, v2)` on pairs of strings, as used
by `sorted(run.params.items())`. -/
def pairLe (a b : String × String) : Prop :=
  (if a.1 = b.1 then clLeB a.2.data b.2.data else clLtB a.1.data b.1.data) = true

instance : DecidableRel pairLe :=
  fun a b =>
    inferInstanceAs
      (Decidable ((if a.1 = b.1 then clLeB a.2.data b.2.data else clLtB a.1.data b.1.data) = true))

/-- The merge key component `"\n".join(f"{k}: {v}" for k, v in sorted(run.params.items()))`. -/
def param_string (params : List (String × String)) : String :=
  String.intercalate "\n" ((List.insertionSort pairLe params).map (fun kv => kv.1 ++ ": " ++ kv.2))

/-- One iteration of `merge_stats`' loop: skip error runs; otherwise accumulate
into the first-seen stats for the `(group, param_string)` key. -/
def merge_step (mapping : List ((Option String × String) × RunStats)) (run : RunStats) :
    List ((Option String × String) × RunStats) :=
  if run.errors ≠ 0 then mapping
  else
    let key : Option String × String := (run.group, param_string run.params)
    match dictGet mapping key with
    | some saved =>
      dictSet mapping key
        { saved with
          start := none
          count := saved.count + run.count
          bytes := saved.bytes + run.bytes
          duration := saved.duration + run.duration
          patient_count := saved.patient_count + run.patient_count
          num_runs := saved.num_runs + 1 }
    | none => dictSet mapping key run

/-- `merge_stats(runs)`: fold every stat block into the keyed mapping and
return the mapping's values. -/
def merge_stats (runs : List RunStats) : List RunStats :=
  (runs.foldl merge_step []).map Prod.snd

/-- `sort_stats`' key: the canonicalized `_type` string (absent `_type` reads
as `""`). -/
def sort_key (run : RunStats) : String :=
  canonType ((dictGet run.params "_type").getD "")

/-- The ordering `sort_stats` sorts by. -/
def sortKeyLe (a b : RunStats) : Prop := clLeB (sort_key a).data (sort_key b).data = true

instance : DecidableRel sortKeyLe :=
  fun a b => inferInstanceAs (Decidable (clLeB (sort_key a).data (sort_key b).data = true))

/-- `sort_stats(runs)`: stable sort by the canonicalized `_type` key. -/
def sort_stats (runs : List RunStats) : List RunStats :=
  List.insertionSort sortKeyLe runs

/-- The raised exception of a computation, if any. -/
def raised (e : Except String (BulkRun × Option RunStats)) : Option String :=
  match e with
  | .ok _ => none
  | .error m => some m

/-- A default row, for `Option.getD` in closed statements. -/
def blankRow : Row := { exportId := "", eventId := "" }

/-! ### Concrete inputs used by the claim theorems -/

/-- A full run whose log stream contains a duplicate `download_complete`. -/
def c1Rows : List Row :=
  [{ exportId := "e1", eventId := "kickoff", timestamp := 0,
     eventDetail := { exportUrl := "https://h/fhir/Group/g1/$export" } },
   { exportId := "e1", eventId := "status_complete", timestamp := 50 },
   { exportId := "e1", eventId := "download_request",
     eventDetail := { fileUrl := "u1", resourceType := "Patient", itemType := "output" } },
   { exportId := "e1", eventId := "download_complete",
     eventDetail := { fileUrl := "u1", resourceCount := 5 } },
   { exportId := "e1", eventId := "download_complete",
     eventDetail := { fileUrl := "u1", resourceCount := 5 } },
   { exportId := "e1", eventId := "export_complete", timestamp := 10000,
     eventDetail := { resources := 5, bytes := 100 } }]

/-- The run reconstructed from `c1Rows`. -/
def c1Run : BulkRun := (parse_log_rows c1Rows).headD { export_id := "" }

/-- Two mergeable stat blocks with equal group and canonical params. -/
def c2a : RunStats :=
  { group := some "g", start := some 5, params := [("_type", "a,b"), ("x", "1")],
    count := 10, patient_count := 2, bytes := 100, duration := 1000, errors := 0, num_runs := 1 }

/-- Second stat block for the merge witness: same group and params as `c2a`. -/
def c2b : RunStats :=
  { group := some "g", start := some 7, params := [("_type", "a,b"), ("x", "1")],
    count := 20, patient_count := 3, bytes := 200, duration := 3000, errors := 0, num_runs := 1 }

/-- A run missing its kickoff (a resumed download). -/
def c3Run : BulkRun :=
  { export_id := "e3",
    status_complete := some { exportId := "e3", eventId := "status_complete", timestamp := 1 },
    export_complete := some { exportId := "e3", eventId := "export_complete", timestamp := 2 } }

/-- A stat block carrying errors. -/
def c4ErrStats : RunStats := { count := 10, errors := 5 }

/-- A full run whose only download is an error file that was reported by a
`download_error` event and never completed. -/
def c5Rows : List Row :=
  [{ exportId := "e5", eventId := "kickoff", timestamp := 0 },
   { exportId := "e5", eventId := "status_complete", timestamp := 1 },
   { exportId := "e5", eventId := "download_request",
     eventDetail := { fileUrl := "err1", resourceType := "OperationOutcome", itemType := "error" } },
   { exportId := "e5", eventId := "download_error",
     eventDetail := { fileUrl := "err1" } },
   { exportId := "e5", eventId := "export_complete", timestamp := 10,
     eventDetail := { resources := 0, bytes := 0 } }]

/-- The run reconstructed from `c5Rows`. -/
def c5Run : BulkRun := (parse_log_rows c5Rows).headD { export_id := "" }

/-- Kickoff whose `_type` is the single type `"NotPatient"`, which contains
`"Patient"` as a substring but not as a comma-separated member. -/
def c6Kick : Row :=
  { exportId := "e6", eventId := "kickoff", timestamp := 0,
    eventDetail := { requestParameters := [("_type", "NotPatient")] } }

/-- Eligible run for the `patientCount` counterexample: `_type` is exactly
`"NotPatient"` and one completed download has resource type `Patient`. -/
def c6Run : BulkRun :=
  { export_id := "e6",
    kickoff := some c6Kick,
    status_complete := some { exportId := "e6", eventId := "status_complete", timestamp := 1 },
    export_complete := some
      { exportId := "e6", eventId := "export_complete", timestamp := 10,
        eventDetail := { resources := 40, bytes := 9 } },
    downloads := [("u6",
      { url := "u6",
        request :=
          { exportId := "e6", eventId := "download_request",
            eventDetail := { fileUrl := "u6", resourceType := "Patient", itemType := "output" } },
        complete := some
          { exportId := "e6", eventId := "download_complete",
            eventDetail := { fileUrl := "u6", resourceCount := 40 } } })] }

/-- Kickoff without any `_type` parameter, for the patient-count witness run. -/
def c6WKick : Row := { exportId := "w6", eventId := "kickoff", timestamp := 0 }

/-- A minimal eligible run without `_type`. -/
def c6W : BulkRun :=
  { export_id := "w6",
    kickoff := some c6WKick,
    status_complete := some { exportId := "w6", eventId := "status_complete", timestamp := 1 },
    export_complete := some { exportId := "w6", eventId := "export_complete", timestamp := 4 } }

/-- The stats `collate_run` derives from `c6W`. -/
def c6WStats : RunStats :=
  { group := some "", start := some 0, params := [], count := 0, patient_count := 0,
    bytes := 0, duration := 4, errors := 0, num_runs := 1 }

/-- Kickoff whose `_type` value `"b,a"` is not in canonical order. -/
def c7Kick : Row :=
  { exportId := "e7", eventId := "kickoff", timestamp := 0,
    eventDetail := { requestParameters := [("_type", "b,a")] } }

/-- Eligible run whose kickoff `_type` is non-canonical. -/
def c7Run : BulkRun :=
  { export_id := "e7",
    kickoff := some c7Kick,
    status_complete := some { exportId := "e7", eventId := "status_complete", timestamp := 1 },
    export_complete := some
      { exportId := "e7", eventId := "export_complete", timestamp := 9,
        eventDetail := { resources := 3, bytes := 7 } } }

/-- `c7Run` after `collate_run`: its kickoff's `_type` has been rewritten in
place to the canonical `"a,b"`. -/
def c7RunAfter : BulkRun :=
  { c7Run with kickoff := some { c7Kick with eventDetail :=
      { c7Kick.eventDetail with requestParameters := [("_type", "a,b")] } } }

/-- The stats `collate_run` derives from `c7Run`. -/
def c7Stats : RunStats :=
  { group := some "", start := some 0, params := [("_type", "a,b")], count := 3,
    patient_count := 0, bytes := 7, duration := 9, errors := 0, num_runs := 1 }

/-- An arbitrary follow-up event row for a poisoned run. -/
def c8Row : Row := { exportId := "e8", eventId := "kickoff" }

/-- A poisoned run. -/
def c8Run : BulkRun :=
  { export_id := "e8",
    kickoff := some { exportId := "e8", eventId := "kickoff" },
    parse_error := some "Two kickoff events" }

/-- A `download_complete` event for a URL that was never requested. -/
def c9Row : Row :=
  { exportId := "e9", eventId := "download_complete", eventDetail := { fileUrl := "u9" } }

/-- A healthy run with no downloads. -/
def c9Run : BulkRun := { export_id := "e9" }

/-! ### Helper lemmas about the character-level string operations -/

theorem clLe_total (a b : List Char) : clLe a b ∨ clLe b a := by
  unfold clLe
  induction a generalizing b with
  | nil => left; rfl
  | cons x as ih =>
    cases b with
    | nil => right; rfl
    | cons y bs =>
      by_cases hxy : x = y
      · subst hxy
        rcases ih bs with h | h
        · left; simpa [clLeB] using h
        · right; simpa [clLeB] using h
      · rcases lt_or_gt_of_ne hxy with hlt | hgt
        · left; simp [clLeB, hxy, hlt]
        · right; simp [clLeB, Ne.symm hxy, hgt]

theorem clLe_trans (a b c : List Char) (h1 : clLe a b) (h2 : clLe b c) : clLe a c := by
  unfold clLe at *
  induction a generalizing b c with
  | nil => rfl
  | cons x as ih =>
    cases b with
    | nil => simp [clLeB] at h1
    | cons y bs =>
      cases c with
      | nil => simp [clLeB] at h2
      | cons z cs =>
        by_cases hxy : x = y
        · subst hxy
          by_cases hyz : x = z
          · subst hyz
            simp only [clLeB, if_pos rfl] at h1 h2 ⊢
            exact ih bs cs h1 h2
          · simp only [clLeB, if_neg hyz] at h2 ⊢
            exact h2
        · by_cases hyz : y = z
          · subst hyz
            simp only [clLeB, if_neg hxy] at h1 ⊢
            exact h1
          · simp only [clLeB, if_neg hxy, if_neg hyz, decide_eq_true_eq] at h1 h2
            have hxz : x < z := lt_trans h1 h2
            simp [clLeB, ne_of_lt hxz, hxz]

theorem splitComma_cons (c : Char) (t : List Char) (h : List Char) (r : List (List Char))
    (hsp : splitComma t = h :: r) :
    splitComma (c :: t) = if c = ',' then [] :: h :: r else (c :: h) :: r := by
  simp only [splitComma, hsp]

theorem splitComma_ne_nil (l : List Char) : splitComma l ≠ [] := by
  induction l with
  | nil => simp [splitComma]
  | cons c t ih =>
    cases hsp : splitComma t with
    | nil => exact absurd hsp ih
    | cons h r =>
      rw [splitComma_cons c t h r hsp]
      split <;> simp

theorem mem_splitComma_no_comma : ∀ {l m : List Char}, m ∈ splitComma l → ',' ∉ m := by
  intro l
  induction l with
  | nil =>
    intro m hm
    simp only [splitComma, List.mem_singleton] at hm
    subst hm; simp
  | cons c t ih =>
    intro m hm
    cases hsp : splitComma t with
    | nil => exact absurd hsp (splitComma_ne_nil t)
    | cons h r =>
      rw [splitComma_cons c t h r hsp] at hm
      have hht : h ∈ splitComma t := by rw [hsp]; exact List.mem_cons_self h r
      by_cases hc : c = ','
      · rw [if_pos hc] at hm
        rcases List.mem_cons.mp hm with rfl | hm2
        · simp
        · exact ih (by rw [hsp]; exact hm2)
      · rw [if_neg hc] at hm
        rcases List.mem_cons.mp hm with rfl | hm2
        · intro hmem
          rcases List.mem_cons.mp hmem with hcc | hch
          · exact hc hcc.symm
          · exact ih hht hch
        · exact ih (by rw [hsp]; exact List.mem_cons_of_mem _ hm2)

theorem splitComma_of_no_comma {m : List Char} (h : ',' ∉ m) : splitComma m = [m] := by
  induction m with
  | nil => rfl
  | cons c t ih =>
    have hc : ¬c = ',' := fun hcc => h (by rw [hcc]; exact List.mem_cons_self ',' t)
    have ht : ',' ∉ t := fun hmem => h (List.mem_cons_of_mem c hmem)
    rw [splitComma_cons c t t [] (ih ht), if_neg hc]

theorem splitComma_append_comma {m : List Char} (t : List Char) (h : ',' ∉ m) :
    splitComma (m ++ ',' :: t) = m :: splitComma t := by
  induction m with
  | nil =>
    cases hsp : splitComma t with
    | nil => exact absurd hsp (splitComma_ne_nil t)
    | cons x r =>
      rw [List.nil_append, splitComma_cons ',' t x r hsp, if_pos rfl]
  | cons c m2 ih =>
    have hc : ¬c = ',' := fun hcc => h (by rw [hcc]; exact List.mem_cons_self ',' m2)
    have hm2 : ',' ∉ m2 := fun hmem => h (List.mem_cons_of_mem c hmem)
    rw [List.cons_append, splitComma_cons c _ m2 (splitComma t) (ih hm2), if_neg hc]

theorem joinComma_cons_cons (m m2 : List Char) (r : List (List Char)) :
    joinComma (m :: m2 :: r) = m ++ ',' :: joinComma (m2 :: r) := rfl

theorem splitComma_joinComma :
    ∀ {L : List (List Char)}, L ≠ [] → (∀ m ∈ L, ',' ∉ m) → splitComma (joinComma L) = L := by
  intro L
  induction L with
  | nil => intro h; exact absurd rfl h
  | cons m rest ih =>
    intro _ hnc
    cases rest with
    | nil =>
      show splitComma (joinComma [m]) = [m]
      exact splitComma_of_no_comma (hnc m (List.mem_cons_self m []))
    | cons m2 r =>
      rw [joinComma_cons_cons,
        splitComma_append_comma _ (hnc m (List.mem_cons_self m _)),
        ih (by simp) (fun x hx => hnc x (List.mem_cons_of_mem m hx))]

/-- C10: the `_type` canonicalization (split on commas, sort, rejoin) is
idempotent: applying it twice yields the same string as applying it once. -/
theorem canonType_idempotent (s : String) : canonType (canonType s) = canonType s := by
  unfold canonType
  have hdata : (String.mk (joinComma (List.insertionSort clLe (splitComma s.data)))).data
      = joinComma (List.insertionSort clLe (splitComma s.data)) := rfl
  rw [hdata]
  have hne : List.insertionSort clLe (splitComma s.data) ≠ [] := by
    intro hnil
    have hlen := (List.perm_insertionSort clLe (splitComma s.data)).length_eq
    rw [hnil] at hlen
    exact splitComma_ne_nil s.data (List.length_eq_zero.mp hlen.symm)
  have hnc : ∀ m ∈ List.insertionSort clLe (splitComma s.data), ',' ∉ m := fun m hm =>
    mem_splitComma_no_comma ((List.perm_insertionSort clLe (splitComma s.data)).subset hm)
  rw [splitComma_joinComma hne hnc]
  haveI : IsTotal (List Char) clLe := ⟨clLe_total⟩
  haveI : IsTrans (List Char) clLe := ⟨fun a b c => clLe_trans a b c⟩
  rw [(List.sorted_insertionSort clLe (splitComma s.data)).insertionSort_eq]

/-- C8: once a run's `parse_error` is set (to a truthy string), processing any
further event returns the run completely unchanged — in particular the error is
never cleared and every field is preserved. -/
theorem parse_log_row_poisoned_frozen (row : Row) (run : BulkRun)
    (h : truthyStr run.parse_error = true) :
    parse_log_row row (some run) = run := by
  unfold parse_log_row
  simp only [h, if_true]

/-- Witness for `parse_log_row_poisoned_frozen` at a concrete poisoned run. -/
theorem parse_log_row_poisoned_frozen_witness :
    truthyStr c8Run.parse_error = true ∧ parse_log_row c8Row (some c8Run) = c8Run :=
  ⟨by decide, parse_log_row_poisoned_frozen c8Row c8Run (by decide)⟩

/-- C9: a `download_complete` or `download_error` event whose file URL has no
entry in the (healthy) run's downloads mapping sets the run's parse error to
exactly "Missing download request". -/
theorem parse_log_row_missing_download_request (row : Row) (run : BulkRun)
    (hp : truthyStr run.parse_error = false)
    (he : row.eventId = "download_complete" ∨ row.eventId = "download_error")
    (hu : dictGet run.downloads row.eventDetail.fileUrl = none) :
    (parse_log_row row (some run)).parse_error = some "Missing download request" := by
  unfold parse_log_row
  rcases he with he | he <;> simp [he, hp, hu]

/-- Witness for `parse_log_row_missing_download_request` at a concrete event. -/
theorem parse_log_row_missing_download_request_witness :
    truthyStr c9Run.parse_error = false ∧
      (c9Row.eventId = "download_complete" ∨ c9Row.eventId = "download_error") ∧
      dictGet c9Run.downloads c9Row.eventDetail.fileUrl = none ∧
      (parse_log_row c9Row (some c9Run)).parse_error = some "Missing download request" :=
  ⟨by decide, Or.inl rfl, by decide,
    parse_log_row_missing_download_request c9Row c9Run (by decide) (Or.inl rfl) (by decide)⟩

/-- C1 (failing input): after a run receives a duplicate `download_complete`,
the message "Two complete events" is recorded on the `BulkDownload` object
(where nothing ever reads it), the run's own `parse_error` stays `None`, and
`collate_run` still derives stats for the run instead of excluding it. -/
theorem duplicate_download_event_does_not_poison_run :
    c1Run.parse_error = none ∧
      (dictGet c1Run.downloads "u1").map BulkDownload.parse_error =
        some (some "Two complete events") ∧
      (stats_of (collate_run c1Run)).isSome = true := by
  decide

/-- C5 (failing input): on an eligible run (no parse error, all three defining
events present) whose error-typed download has `errorInfo` but no
`completionInfo`, `collate_run` raises instead of terminating normally. -/
theorem collate_run_raises_on_uncompleted_error_download :
    c5Run.parse_error = none ∧ c5Run.kickoff.isSome = true ∧
      c5Run.status_complete.isSome = true ∧ c5Run.export_complete.isSome = true ∧
      raised (collate_run c5Run) = some "TypeError: NoneType is not subscriptable" ∧
      stats_of (collate_run c5Run) = none := by
  decide

/-- Supporting fact for the C1 divergence: a duplicate `kickoff` event does
poison the run itself, as the claim describes for run-level singletons. -/
theorem duplicate_kickoff_poisons_run :
    (parse_log_row c8Row (some { export_id := "e8", kickoff := some c8Row })).parse_error =
      some "Two kickoff events" := by
  decide

/-- C4 (counterexample): a stat block with nonzero `errors` does not appear in
the merger's output at all — `merge_stats` drops it rather than passing it
through with `num_runs = 1`. -/
theorem merge_stats_drops_error_stats :
    c4ErrStats.errors ≠ 0 ∧ merge_stats [c4ErrStats] = [] := by
  decide

/-- C4 (amended): the merger ignores every error-bearing stat block entirely:
its output equals its output on the error-free sublist, so error-bearing stats
are never combined with another block — and are omitted from the output. -/
theorem merge_stats_ignores_error_stats (runs : List RunStats) :
    merge_stats runs = merge_stats (runs.filter (fun r => r.errors == 0)) := by
  unfold merge_stats
  suffices h : ∀ acc, runs.foldl merge_step acc =
      (runs.filter (fun r => r.errors == 0)).foldl merge_step acc by
    rw [h]
  induction runs with
  | nil => intro acc; rfl
  | cons r rest ih =>
    intro acc
    by_cases h : r.errors = 0
    · rw [List.filter_cons_of_pos (by simp [h]), List.foldl_cons, List.foldl_cons, ih]
    · rw [List.filter_cons_of_neg (by simp [h]), List.foldl_cons]
      have hstep : merge_step acc r = acc := by
        unfold merge_step
        rw [if_pos h]
      rw [hstep, ih]

/-- C2: merging two error-free stat blocks with identical group and identical
(canonical) params yields exactly one block whose `start` is cleared, whose
numeric fields are the sums of the inputs, and whose `num_runs` is 2. -/
theorem merge_stats_pair (s1 s2 : RunStats) (h1 : s1.errors = 0) (h2 : s2.errors = 0)
    (hg : s1.group = s2.group) (hp : s1.params = s2.params) (hn : s1.num_runs = 1) :
    merge_stats [s1, s2] =
      [{ s1 with
          start := none, count := s1.count + s2.count, bytes := s1.bytes + s2.bytes,
          duration := s1.duration + s2.duration,
          patient_count := s1.patient_count + s2.patient_count, num_runs := 2 }] := by
  obtain ⟨g1, st1, p1, c1, pc1, b1, d1, e1, n1⟩ := s1
  obtain ⟨g2, st2, p2, c2, pc2, b2, d2, e2, n2⟩ := s2
  dsimp only at h1 h2 hg hp hn ⊢
  subst h1; subst h2; subst hg; subst hp; subst hn
  simp [merge_stats, merge_step, dictGet, dictSet]

/-- Witness for `merge_stats_pair` at two concrete stat blocks. -/
theorem merge_stats_pair_witness :
    merge_stats [c2a, c2b] =
      [{ c2a with
          start := none, count := c2a.count + c2b.count, bytes := c2a.bytes + c2b.bytes,
          duration := c2a.duration + c2b.duration,
          patient_count := c2a.patient_count + c2b.patient_count, num_runs := 2 }] :=
  merge_stats_pair c2a c2b rfl rfl rfl rfl rfl

/-- C3: for a run whose `parse_error` is not the (unreachable) empty string,
`collate_run` returns no stats — leaving the run untouched, with no error
recorded — exactly when the parse error is set or one of `kickoff`,
`status_complete`, `export_complete` is absent. -/
theorem collate_run_ineligible_iff (run : BulkRun) (h : run.parse_error ≠ some "") :
    collate_run run = .ok (run, none) ↔
      (run.parse_error ≠ none ∨ run.kickoff = none ∨ run.status_complete = none ∨
        run.export_complete = none) := by
  constructor
  · intro hcol
    by_contra hno
    push_neg at hno
    obtain ⟨hpe, hk, hs, he⟩ := hno
    obtain ⟨kick, hk2⟩ := Option.ne_none_iff_exists'.mp hk
    obtain ⟨st, hs2⟩ := Option.ne_none_iff_exists'.mp hs
    obtain ⟨ec, he2⟩ := Option.ne_none_iff_exists'.mp he
    unfold collate_run at hcol
    simp only [hpe, truthyStr, Bool.false_eq_true, if_false, hk2, hs2, he2] at hcol
    cases hsum : sum_error_resource_counts
        ((run.downloads.map Prod.snd).filter (fun d => d.request.eventDetail.itemType == "error"))
      with
    | error e => rw [hsum] at hcol; exact Except.noConfusion hcol
    | ok n =>
      rw [hsum] at hcol
      simp at hcol
  · intro hr
    by_cases ht : truthyStr run.parse_error = true
    · unfold collate_run
      rw [if_pos ht]
    · have hpe : run.parse_error = none := by
        cases hpe2 : run.parse_error with
        | none => rfl
        | some s =>
          rw [hpe2] at ht
          have hs0 : s = "" := by
            by_contra hne
            exact ht (by simp [truthyStr, hne])
          rw [hs0] at hpe2
          exact absurd hpe2 h
      rcases hr with hr | hr | hr | hr
      · exact absurd hpe hr
      · unfold collate_run
        rw [if_neg ht, hr]
      · unfold collate_run
        rw [if_neg ht]
        cases hk : run.kickoff with
        | none => rfl
        | some kick => rw [hr]
      · unfold collate_run
        rw [if_neg ht]
        cases hk : run.kickoff with
        | none => rfl
        | some kick =>
          cases hs : run.status_complete with
          | none => rfl
          | some st => rw [hr]

/-- Witness for `collate_run_ineligible_iff` at a concrete kickoff-less run. -/
theorem collate_run_ineligible_iff_witness :
    c3Run.parse_error ≠ some "" ∧
      (collate_run c3Run = .ok (c3Run, none) ↔
        (c3Run.parse_error ≠ none ∨ c3Run.kickoff = none ∨ c3Run.status_complete = none ∨
          c3Run.export_complete = none)) :=
  ⟨by decide, collate_run_ineligible_iff c3Run (by decide)⟩

/-- C7 (counterexample): on the eligible run `c7Run`, whose kickoff `_type` is
`"b,a"`, `collate_run` returns normally but the returned run's kickoff differs
from the input's — the aliased `requestParameters` were mutated. -/
theorem collate_run_mutates_kickoff :
    c7Run.parse_error = none ∧ c7Run.kickoff.isSome = true ∧
      c7Run.status_complete.isSome = true ∧ c7Run.export_complete.isSome = true ∧
      (run_after (collate_run c7Run)).isSome = true ∧
      (run_after (collate_run c7Run)).map BulkRun.kickoff ≠ some c7Run.kickoff := by
  decide

/-- C7 (amended): when `collate_run` returns normally, every field of the run
is unchanged except the kickoff's `requestParameters`: if they carry a nonempty
`_type` value, that single entry is rewritten in place to its canonical form,
and otherwise the kickoff too is unchanged. -/
theorem collate_run_frame (run r1 : BulkRun) (os : Option RunStats)
    (h : collate_run run = .ok (r1, os)) :
    r1.export_id = run.export_id ∧ r1.status_complete = run.status_complete ∧
      r1.export_complete = run.export_complete ∧ r1.downloads = run.downloads ∧
      r1.parse_error = run.parse_error ∧
      (r1.kickoff = run.kickoff ∨
        ∃ kick types, run.kickoff = some kick ∧
          dictGet kick.eventDetail.requestParameters "_type" = some types ∧ types ≠ "" ∧
          r1.kickoff = some { kick with
            eventDetail := { kick.eventDetail with
              requestParameters :=
                dictSet kick.eventDetail.requestParameters "_type" (canonType types) } }) := by
  unfold collate_run at h
  by_cases ht : truthyStr run.parse_error = true
  · rw [if_pos ht] at h
    injection h with hpair
    injection hpair with hr ho
    subst hr
    exact ⟨rfl, rfl, rfl, rfl, rfl, Or.inl rfl⟩
  · rw [if_neg ht] at h
    cases hk : run.kickoff with
    | none =>
      rw [hk] at h
      injection h with hpair
      injection hpair with hr ho
      subst hr
      exact ⟨rfl, rfl, rfl, rfl, rfl, Or.inl hk⟩
    | some kick =>
      rw [hk] at h
      cases hs : run.status_complete with
      | none =>
        rw [hs] at h
        injection h with hpair
        injection hpair with hr ho
        subst hr
        exact ⟨rfl, hs, rfl, rfl, rfl, Or.inl hk⟩
      | some st =>
        rw [hs] at h
        cases he : run.export_complete with
        | none =>
          rw [he] at h
          injection h with hpair
          injection hpair with hr ho
          subst hr
          exact ⟨rfl, hs, he, rfl, rfl, Or.inl hk⟩
        | some ec =>
          rw [he] at h
          dsimp only at h
          cases hsum : sum_error_resource_counts
              ((run.downloads.map Prod.snd).filter
                (fun d => d.request.eventDetail.itemType == "error")) with
          | error e =>
            rw [hsum] at h
            exact Except.noConfusion h
          | ok errs =>
            rw [hsum] at h
            injection h with hpair
            injection hpair with hr ho
            subst hr
            refine ⟨rfl, rfl, rfl, rfl, rfl, ?_⟩
            by_cases htt : truthyStr (dictGet kick.eventDetail.requestParameters "_type") = true
            · right
              cases hdg : dictGet kick.eventDetail.requestParameters "_type" with
              | none =>
                rw [hdg] at htt
                simp [truthyStr] at htt
              | some ts =>
                rw [hdg] at htt
                refine ⟨kick, ts, rfl, hdg, ?_, ?_⟩
                · simpa [truthyStr] using htt
                · simp [htt, Option.getD]
            · left
              simp [htt]

/-- Witness for `collate_run_frame` at `c7Run`. -/
theorem collate_run_frame_witness :
    c7RunAfter.export_id = c7Run.export_id ∧
      c7RunAfter.status_complete = c7Run.status_complete ∧
      c7RunAfter.export_complete = c7Run.export_complete ∧
      c7RunAfter.downloads = c7Run.downloads ∧
      c7RunAfter.parse_error = c7Run.parse_error ∧
      (c7RunAfter.kickoff = c7Run.kickoff ∨
        ∃ kick types, c7Run.kickoff = some kick ∧
          dictGet kick.eventDetail.requestParameters "_type" = some types ∧ types ≠ "" ∧
          c7RunAfter.kickoff = some { kick with
            eventDetail := { kick.eventDetail with
              requestParameters :=
                dictSet kick.eventDetail.requestParameters "_type" (canonType types) } }) :=
  collate_run_frame c7Run c7RunAfter (some c7Stats) (by rfl)

/-- C6 (counterexample): on the eligible run `c6Run`, whose `_type` value is
exactly the single type `"NotPatient"` (so `Patient` is not one of the
comma-separated requested types), the code still computes `patient_count = 40`,
because its membership test is a substring test. -/
theorem collate_run_counts_patients_for_substring_type :
    c6Run.parse_error = none ∧ c6Run.kickoff.isSome = true ∧
      c6Run.status_complete.isSome = true ∧ c6Run.export_complete.isSome = true ∧
      dictGet ((c6Run.kickoff.getD blankRow).eventDetail.requestParameters) "_type" =
        some "NotPatient" ∧
      (splitComma "NotPatient".data).contains "Patient".data = false ∧
      (stats_of (collate_run c6Run)).map RunStats.patient_count = some 40 := by
  decide

/-- C6 (amended): for every run on which `collate_run` succeeds with stats,
`patient_count` equals `count_patients` exactly when `_type` is absent or
empty, or is a value other than `"Patient"` that contains `"Patient"` as a
substring (of the original, pre-canonicalization value); otherwise it is 0. -/
theorem collate_run_patient_count (run : BulkRun) (kick : Row) (r1 : BulkRun) (s : RunStats)
    (hk : run.kickoff = some kick)
    (h : collate_run run = .ok (r1, some s)) :
    s.patient_count =
      (match dictGet kick.eventDetail.requestParameters "_type" with
       | none => count_patients run
       | some t =>
         if t = "" then count_patients run
         else if t ≠ "Patient" ∧ pyInStr "Patient" t = true then count_patients run
         else 0) := by
  unfold collate_run at h
  by_cases ht : truthyStr run.parse_error = true
  · rw [if_pos ht] at h
    injection h with hpair
    injection hpair with hr ho
    exact Option.noConfusion ho
  · rw [if_neg ht, hk] at h
    cases hs : run.status_complete with
    | none =>
      rw [hs] at h
      injection h with hpair
      injection hpair with hr ho
      exact Option.noConfusion ho
    | some st =>
      rw [hs] at h
      cases he : run.export_complete with
      | none =>
        rw [he] at h
        injection h with hpair
        injection hpair with hr ho
        exact Option.noConfusion ho
      | some ec =>
        rw [he] at h
        dsimp only at h
        cases hsum : sum_error_resource_counts
            ((run.downloads.map Prod.snd).filter
              (fun d => d.request.eventDetail.itemType == "error")) with
        | error e =>
          rw [hsum] at h
          exact Except.noConfusion h
        | ok errs =>
          rw [hsum] at h
          injection h with hpair
          injection hpair with hr ho
          injection ho with hstats
          subst hstats
          cases hdg : dictGet kick.eventDetail.requestParameters "_type" with
          | none => simp [hdg, truthyStr]
          | some t =>
            by_cases ht0 : t = ""
            · subst ht0
              simp [hdg, truthyStr]
            · by_cases htP : t = "Patient"
              · subst htP
                simp [hdg, truthyStr]
              · by_cases hin : pyInStr "Patient" t = true
                · simp [hdg, truthyStr, ht0, htP, hin]
                · simp [hdg, truthyStr, ht0, htP, hin]

/-- Witness for `collate_run_patient_count` at the concrete run `c6W`. -/
theorem collate_run_patient_count_witness :
    c6WStats.patient_count =
      (match dictGet c6WKick.eventDetail.requestParameters "_type" with
       | none => count_patients c6W
       | some t =>
         if t = "" then count_patients c6W
         else if t ≠ "Patient" ∧ pyInStr "Patient" t = true then count_patients c6W
         else 0) :=
  collate_run_patient_count c6W c6WKick c6W c6WStats rfl (by rfl)

end BulkLog
